import Mathlib

/-!
Verification development for the snapshot-tree reconstruction core of the
vboxhelper crate.  The Rust sources are shallowly embedded: `HashMap` becomes
an association list with a decidable-equality lookup, `uuid::Uuid` becomes the
128-bit value it denotes (a `Nat`), fallible code returns an explicit result
type, and a Rust panic (from `unwrap`/`expect`) is a distinguished `crash`
outcome, separate from the typed `Err` values the code returns.
-/

set_option maxHeartbeats 1000000
set_option maxRecDepth 100000

/-- Error type modelling `err.rs`: the `Error` enum.  Payloads that the claims
never inspect (`std::process::Output`) are reduced to their message strings.
Apostrophes/quotes that appear inside the original format strings are elided
from the embedded messages. -/
inductive Err where
  | io : String → Err
  | badFormat : String → Err
  | failedToExecute : String → Err
  | commandFailed : String → Err
  | missingData : String → Err
  | ambiguous : String → Err
  | missing : String → Err
  | timeout : Err
  deriving DecidableEq, Repr

/-- Result of running a fallible Rust function: a normal return value, a
returned `Err` value, or a panic (Rust `unwrap`/`expect`), which aborts the
process rather than returning.  `crash` carries the panic message. -/
inductive RunRes (α : Type) where
  | ok : α → RunRes α
  | err : Err → RunRes α
  | crash : String → RunRes α
  deriving DecidableEq, Repr

/-- Check whether a run result is a returned (typed) error value. -/
def RunRes.isErr {α : Type} : RunRes α → Bool
  | .err _ => true
  | _ => false

/-- Message of the panic raised by `Option::unwrap` on `None`. -/
def unwrapMsg : String := "called Option.unwrap on a None value"

/-- Lookup in an association list, modelling `HashMap::get` (the maps built by
the code have unique keys; lookup returns the first binding). -/
def alookup {α β : Type} [DecidableEq α] : List (α × β) → α → Option β
  | [], _ => none
  | (k, v) :: t, a => if k = a then some v else alookup t a

/-- Insert into an association list, modelling `HashMap::insert`: replace the
binding if the key is present, otherwise append. -/
def ainsert {α β : Type} [DecidableEq α] : List (α × β) → α → β → List (α × β)
  | [], a, b => [(a, b)]
  | (k, v) :: t, a, b => if k = a then (a, b) :: t else (k, v) :: ainsert t a b

/-- Flat key/value map, modelling `HashMap<String, String>`. -/
abbrev FlatMap := List (String × String)

/-- Numeric value of one hexadecimal digit, if any. -/
def hexVal (c : Char) : Option Nat :=
  if '0' ≤ c ∧ c ≤ '9' then some (c.toNat - 48)
  else if 'a' ≤ c ∧ c ≤ 'f' then some (c.toNat - 87)
  else if 'A' ≤ c ∧ c ≤ 'F' then some (c.toNat - 55)
  else none

/-- Accumulate a most-significant-first list of hex digits into a number;
fails on the first non-hex character. -/
def hexAcc : List Char → Nat → Option Nat
  | [], acc => some acc
  | c :: cs, acc =>
    match hexVal c with
    | some d => hexAcc cs (acc * 16 + d)
    | none => none

/-- Split a character list on a separator character.  Always returns at least
one (possibly empty) part; `n` separators yield `n + 1` parts. -/
def splitOnChar (sep : Char) : List Char → List (List Char)
  | [] => [[]]
  | c :: cs =>
    if c = sep then [] :: splitOnChar sep cs
    else
      match splitOnChar sep cs with
      | l :: ls => (c :: l) :: ls
      | [] => [[c]]

/-- Models `uuid::Uuid::parse_str` from the `uuid` crate (an external
dependency of the repository): accepts the hyphenated 8-4-4-4-12 form and the
simple 32-hex-digit form, in either case of letters, and yields the 128-bit
value.  Exotic accepted forms (URN prefix) are omitted; no claim depends on
them. -/
def parseUuid (s : String) : Option Nat :=
  let cs := s.data
  if cs.length = 32 then hexAcc cs 0
  else if cs.length = 36 then
    match splitOnChar '-' cs with
    | [a, b, c, d, e] =>
      if a.length = 8 ∧ b.length = 4 ∧ c.length = 4 ∧ d.length = 4 ∧
          e.length = 12 then
        hexAcc (a ++ b ++ c ++ d ++ e) 0
      else none
    | _ => none
  else none

/-- Snapshot tree node, modelling `struct Snapshot` in `snapshot.rs`.  The
`uuid` field is the parsed 128-bit value. -/
structure Snapshot where
  name : String
  uuid : Nat
  desc : List String
  children : List Nat
  deriving DecidableEq, Repr

/-- Node map of the tree under construction, modelling
`HashMap<uuid::Uuid, Snapshot>`. -/
abbrev SnapMap := List (Nat × Snapshot)

/-- Append a child uuid to the `children` list of the node stored under key
`u`, modelling `snapmap.get_mut(&u)` followed by `n.children.push(cuid)`;
a no-op when `u` is absent, exactly as the `if let Some(n)` in the source. -/
def pushChild : SnapMap → Nat → Nat → SnapMap
  | [], _, _ => []
  | (k, s) :: t, u, c =>
    if k = u then
      (k, { s with children := s.children ++ [c] }) :: t
    else
      (k, s) :: pushChild t u c

/-- Structured snapshot collection, modelling `struct Snapshots`. -/
structure Snapshots where
  map : SnapMap
  root : Nat
  current : Nat
  deriving DecidableEq, Repr

/-- Model of `strutils::EmptyLine`. -/
inductive EmptyLine where
  | Keep
  | Ignore
  deriving DecidableEq, Repr

/-- Continuation byte test for UTF-8 (`10xxxxxx`). -/
def utf8Cont (b : Nat) : Bool := 128 ≤ b && b < 192

/-- Models `std::str::from_utf8` on a byte buffer: standard UTF-8 validation
and decoding (rejecting overlong encodings, surrogates and values above
U+10FFFF), yielding the character sequence on success, `none` on invalid
input. -/
def utf8Decode : List Nat → Option (List Char)
  | [] => some []
  | b :: bs =>
    if b < 128 then (utf8Decode bs).map (fun cs => Char.ofNat b :: cs)
    else if b < 194 then none
    else if b < 224 then
      match bs with
      | b2 :: bs2 =>
        if utf8Cont b2 then
          (utf8Decode bs2).map
            (fun cs => Char.ofNat ((b - 192) * 64 + (b2 - 128)) :: cs)
        else none
      | [] => none
    else if b < 240 then
      match bs with
      | b2 :: b3 :: bs3 =>
        if (if b = 224 then decide (160 ≤ b2) && decide (b2 < 192)
            else if b = 237 then decide (128 ≤ b2) && decide (b2 < 160)
            else utf8Cont b2) && utf8Cont b3 then
          (utf8Decode bs3).map
            (fun cs =>
              Char.ofNat ((b - 224) * 4096 + (b2 - 128) * 64 + (b3 - 128)) :: cs)
        else none
      | _ => none
    else if b < 245 then
      match bs with
      | b2 :: b3 :: b4 :: bs4 =>
        if (if b = 240 then decide (144 ≤ b2) && decide (b2 < 192)
            else if b = 244 then decide (128 ≤ b2) && decide (b2 < 144)
            else utf8Cont b2) && utf8Cont b3 && utf8Cont b4 then
          (utf8Decode bs4).map
            (fun cs =>
              Char.ofNat ((b - 240) * 262144 + (b2 - 128) * 4096 +
                (b3 - 128) * 64 + (b4 - 128)) :: cs)
        else none
      | _ => none
    else none

/-- Models `strutils::buf_to_strlines`: decode the buffer as UTF-8 (the
source uses `expect`, i.e. panics on invalid input), split on line feeds, and
drop empty lines when asked to ignore them. -/
def buf_to_strlines (buf : List Nat) (el : EmptyLine) : RunRes (List String) :=
  match utf8Decode buf with
  | none => .crash "Buffer not UTF-8"
  | some cs =>
    .ok (((splitOnChar '\n' cs).filter
      (fun l => !(l.isEmpty && el == .Ignore))).map (fun l => String.mk l))

/-- Character class `[^"=]` used by every regex in the two decoders. -/
def isKVChar (c : Char) : Bool := !(c == '\"') && !(c == '=')

/-- Longest prefix of characters in the class `[^"=]`, together with the
remainder: the greedy scan a capture group `([^"=]*)` performs. -/
def spanKV : List Char → List Char × List Char
  | [] => ([], [])
  | c :: cs =>
    if isKVChar c then
      match spanKV cs with
      | (k, r) => (c :: k, r)
    else ([], c :: cs)

/-- Matcher for the anchored regex `(key)="(val)"` with `key` one-or-more and
`val` zero-or-more characters of `[^"=]` (regex `re1` in `get_vm_info_map`).
The character classes exclude both delimiters, so greedy matching is
deterministic and a span-based scan is an exact model. -/
def re1Match (cs : List Char) : Option (List Char × List Char) :=
  match spanKV cs with
  | (k, rest) =>
    if k.isEmpty then none
    else
      match rest with
      | '=' :: '\"' :: rest2 =>
        match spanKV rest2 with
        | (v, rest3) => if rest3 = ['\"'] then some (k, v) else none
      | _ => none

/-- Matcher for the anchored regex `"(key)"="(val)"` (regex `re2` in
`get_vm_info_map`). -/
def re2Match (cs : List Char) : Option (List Char × List Char) :=
  match cs with
  | '\"' :: cs1 =>
    match spanKV cs1 with
    | (k, rest) =>
      if k.isEmpty then none
      else
        match rest with
        | '\"' :: '=' :: '\"' :: rest2 =>
          match spanKV rest2 with
          | (v, rest3) => if rest3 = ['\"'] then some (k, v) else none
        | _ => none
  | _ => none

/-- Matcher for the anchored regex `(key)=(val)` with both parts drawn from
`[^"=]` (regex `re3` in `get_vm_info_map`). -/
def re3Match (cs : List Char) : Option (List Char × List Char) :=
  match spanKV cs with
  | (k, rest) =>
    if k.isEmpty then none
    else
      match rest with
      | '=' :: rest2 =>
        match spanKV rest2 with
        | (v, rest3) => if rest3 = [] then some (k, v) else none
      | _ => none

/-- Trailing-whitespace strip, modelling `str::trim_end` (the whitespace
characters the claims exercise are ASCII, which `Char.isWhitespace`
covers). -/
def trimEndCs (cs : List Char) : List Char :=
  (cs.reverse.dropWhile Char.isWhitespace).reverse

/-- Trailing-whitespace strip on strings. -/
def strTrimEnd (s : String) : String := String.mk (trimEndCs s.data)

/-- Per-line key/value decoder of `get_vm_info_map`: trim the end of the
line, then try regexes `re1`, `re2`, `re3` in that order; the first match
wins, and a line matching none of them yields no pair. -/
def decodeKVLine (line : String) : Option (String × String) :=
  let cs := trimEndCs line.data
  match re1Match cs with
  | some (k, v) => some (String.mk k, String.mk v)
  | none =>
    match re2Match cs with
    | some (k, v) => some (String.mk k, String.mk v)
    | none =>
      match re3Match cs with
      | some (k, v) => some (String.mk k, String.mk v)
      | none => none

/-- Line-folding loop of `get_vm_info_map`: decoded pairs are inserted into
the map, undecodable lines are skipped. -/
def vmInfoGo : FlatMap → List String → FlatMap
  | acc, [] => acc
  | acc, l :: ls =>
    match decodeKVLine l with
    | some (k, v) => vmInfoGo (ainsert acc k v) ls
    | none => vmInfoGo acc ls

/-- Map builder of `get_vm_info_map`, over an already-split line list. -/
def get_vm_info_map_lines (ls : List String) : FlatMap := vmInfoGo [] ls

/-- Matcher for the single anchored regex `"?(key)"?="?(val)"?` of
`snapshot::map`, with `key` one-or-more and `val` zero-or-more characters of
`[^"=]`.  Each optional quote is consumed greedily when present; because the
character classes exclude the quote, greedy first-preference matching is
deterministic and equivalent to the backtracking regex. -/
def reSnapMatch (cs : List Char) : Option (List Char × List Char) :=
  let cs1 := match cs with | '\"' :: t => t | _ => cs
  match spanKV cs1 with
  | (k, rest) =>
    if k.isEmpty then none
    else
      let rest1 := match rest with | '\"' :: t => t | _ => rest
      match rest1 with
      | '=' :: rest2 =>
        let rest3 := match rest2 with | '\"' :: t => t | _ => rest2
        match spanKV rest3 with
        | (v, rest4) =>
          match rest4 with
          | [] => some (k, v)
          | ['\"'] => some (k, v)
          | _ => none
      | _ => none

/-- Line-folding loop of `snapshot::map`: the first character of each line is
read with `chars().next().unwrap()` (a panic on an empty line), lines whose
first character is a dash are skipped before decoding, and each remaining
line is decoded with the optional-quote regex, unmatched lines being
skipped. -/
def snapMapGo : FlatMap → List String → RunRes FlatMap
  | acc, [] => .ok acc
  | acc, l :: ls =>
    match l.data with
    | [] => .crash unwrapMsg
    | c :: _ =>
      if c = '-' then snapMapGo acc ls
      else
        match reSnapMatch l.data with
        | some (k, v) => snapMapGo (ainsert acc (String.mk k) (String.mk v)) ls
        | none => snapMapGo acc ls

/-- Map builder of `snapshot::map`, over an already-split line list. -/
def snapshot_map_lines (ls : List String) : RunRes FlatMap := snapMapGo [] ls

/-- Key `SnapshotName{branch}` of the flat map. -/
def nameKey (branch : String) : String := "SnapshotName" ++ branch

/-- Key `SnapshotUUID{branch}` of the flat map. -/
def uuidKey (branch : String) : String := "SnapshotUUID" ++ branch

/-- Branch path of the `i`-th child of `curbranch` (`{curbranch}-{i}`). -/
def childBranch (curbranch : String) (i : Nat) : String :=
  curbranch ++ "-" ++ toString i

/-- Child-probe loop of `get_from_map` (the `for i in 1..usize::MAX` loop):
starting at index `i`, look up `SnapshotUUID{curbranch}-{i}`; while present,
parse the child uuid (a parse failure is a fatal `BadFormat`, whose message
reuses the parent value `uidstr` and `curbranch`, exactly as the source format
string does), append it to the children of node `u`, push the child branch
onto the queue, and continue with `i + 1`; stop at the first absent index.
`fuel` models the finite index range of the source loop; it is at least
`m.length + 1` at every call site, which exceeds the number of keys in `m`
and hence the longest possible run of contiguous hits, so exhaustion
coincides with the source loop running out of its range. -/
def probe (m : FlatMap) (uidstr : String) (u : Nat) (curbranch : String) :
    Nat → Nat → SnapMap → List String → RunRes (SnapMap × List String)
  | _, 0, sm, rq => .ok (sm, rq)
  | i, fuel + 1, sm, rq =>
    let branch := childBranch curbranch i
    match alookup m (uuidKey branch) with
    | some v =>
      match parseUuid v with
      | none =>
        .err (.badFormat
          ("Unable to parse UUID " ++ uidstr ++ " for SnapshotUUID" ++
            curbranch))
      | some cuid =>
        probe m uidstr u curbranch (i + 1) fuel (pushChild sm u cuid)
          (branch :: rq)
    | none => .ok (sm, rq)

/-- Main work-list loop of `get_from_map`.  The queue is a `VecDeque` used
with `push_back`/`pop_back`, i.e. a stack; it is represented here with its
back at the head of the list, so both operations act on the head.  For each
popped branch the name and uuid values are fetched with `unwrap` (a panic
when absent), the uuid is parsed (`BadFormat` on failure), the node is
inserted, and the children are probed.  `fuel` bounds the number of
iterations; the caller passes `m.length + 1`, which exceeds the number of
distinct `SnapshotUUID*` keys and hence the number of branches that can ever
be queued, so the `crash "fuel exhausted"` outcome is unreachable from
`get_from_map`. -/
def snapLoop (m : FlatMap) : Nat → SnapMap → List String → RunRes SnapMap
  | 0, _, _ => .crash "fuel exhausted"
  | fuel + 1, sm, rq =>
    match rq with
    | [] => .ok sm
    | curbranch :: rq' =>
      match alookup m (nameKey curbranch) with
      | none => .crash unwrapMsg
      | some nm =>
        match alookup m (uuidKey curbranch) with
        | none => .crash unwrapMsg
        | some uid =>
          match parseUuid uid with
          | none =>
            .err (.badFormat
              ("Unable to parse UUID " ++ uid ++ " for " ++ uuidKey curbranch))
          | some u =>
            match probe m uid u curbranch 1 (m.length + 1)
                (ainsert sm u ⟨nm, u, [], []⟩) rq' with
            | .err e => .err e
            | .crash s => .crash s
            | .ok (sm2, rq2) => snapLoop m fuel sm2 rq2

/-- Final assembly step of `get_from_map`: the two `match`es whose `None`
arms are the `No root UUID` and `No current UUID` panics of the source. -/
def assemble (sm : SnapMap) (root_uuid current_uuid : Option Nat) :
    RunRes (Option Snapshots) :=
  match root_uuid with
  | none => .crash "No root UUID"
  | some r =>
    match current_uuid with
    | none => .crash "No current UUID"
    | some c => .ok (some ⟨sm, r, c⟩)

/-- Models `snapshot::get_from_map`: detect the root pair
(`SnapshotName`/`SnapshotUUID`; absence of either is the successful
no-snapshots result `none`), parse the root uuid (`BadFormat` on failure),
run the work-list loop seeded with the empty branch, then resolve
`CurrentSnapshotUUID` (`MissingData` when absent, `BadFormat` when
unparseable) and assemble the result. -/
def get_from_map (m : FlatMap) : RunRes (Option Snapshots) :=
  match alookup m "SnapshotName", alookup m "SnapshotUUID" with
  | some _, some uid =>
    (match parseUuid uid with
    | none => .err (.badFormat ("Unable to parse root UUID " ++ uid))
    | some ru =>
      match snapLoop m (m.length + 1) [] [""] with
      | .err e => .err e
      | .crash s => .crash s
      | .ok sm =>
        match alookup m "CurrentSnapshotUUID" with
        | none =>
          .err (.missingData
            "Cant find expected field CurrentSnapshotUUID")
        | some us =>
          match parseUuid us with
          | none => .err (.badFormat ("Unable to parse current UUID " ++ us))
          | some cu => assemble sm (some ru) (some cu))
  | _, _ => .ok none

/-- Models `Snapshots::get_by_name`: linear scan of the node map collecting
every node whose name equals the query, in map order. -/
def get_by_name (t : Snapshots) (name : String) : List Snapshot :=
  (t.map.filter (fun p => p.2.name == name)).map (fun p => p.2)

/-- Models `Snapshots::get_unique_by_name`: `MissingData` for zero matches,
the single match for exactly one, `Ambiguous` for more. -/
def get_unique_by_name (t : Snapshots) (name : String) :
    Except Err Snapshot :=
  match get_by_name t name with
  | [] => .error (.missingData ("The VM has no snapshot named " ++ name))
  | [s] => .ok s
  | _ => .error (.ambiguous ("The VM has multiple snapshots named " ++ name))

/-- Models `Snapshots::get_by_uuid`. -/
def get_by_uuid (t : Snapshots) (u : Nat) : Option Snapshot := alookup t.map u

/-- Models `Snapshots::get_root`. -/
def get_root (t : Snapshots) : Option Snapshot := alookup t.map t.root

/-- Models `Snapshots::get_current`. -/
def get_current (t : Snapshots) : Option Snapshot := alookup t.map t.current

/-- Test whether the first character of a line is a dash. -/
def startsDash (l : String) : Bool :=
  match l.data with
  | c :: _ => c == '-'
  | [] => false

/-- Strings are determined by their character lists. -/
theorem string_mk_data (s : String) : String.mk s.data = s := rfl

/-- Nonempty strings have nonempty character lists. -/
theorem data_ne_nil_of_ne_empty (l : String) (h : l ≠ "") : l.data ≠ [] := by
  intro hd
  apply h
  calc l = String.mk l.data := rfl
    _ = String.mk [] := by rw [hd]

/-- Folding the snapshot flat-map builder over a list of nonempty lines is
unchanged by first discarding the dash-initial lines it skips. -/
theorem snapMapGo_filter_dash (ls : List String) :
    ∀ acc : FlatMap, (∀ l ∈ ls, l ≠ "") →
      snapMapGo acc ls = snapMapGo acc (ls.filter (fun l => !startsDash l)) := by
  induction ls with
  | nil => intro acc _; rfl
  | cons l t ih =>
    intro acc h
    have hl : l ≠ "" := h l (List.mem_cons_self l t)
    have ht : ∀ x ∈ t, x ≠ "" := fun x hx => h x (List.mem_cons_of_mem l hx)
    have hd := data_ne_nil_of_ne_empty l hl
    rcases hc : l.data with _ | ⟨c, cd⟩
    · exact absurd hc hd
    · by_cases hdash : c = '-'
      · subst hdash
        have hs : startsDash l = true := by simp [startsDash, hc]
        simp [snapMapGo, hc, List.filter, hs, ih acc ht]
      · have hs : startsDash l = false := by simp [startsDash, hc, hdash]
        simp only [List.filter, hs, Bool.not_false]
        simp only [snapMapGo, hc, if_neg hdash]
        rcases hm : reSnapMatch (c :: cd) with _ | ⟨k, v⟩
        · simpa [hm] using ih acc ht
        · simpa [hm] using ih (ainsert acc (String.mk k) (String.mk v)) ht

/-- C10: in the snapshot flat-map builder, every line whose first character
is a dash is skipped before key/value decoding, so no pair from such a line
appears in the resulting flat map: the build result over any list of
(nonempty) lines equals the result over the same list with all dash-initial
lines removed. -/
theorem c10_dash_lines_skipped (ls : List String) (h : ∀ l ∈ ls, l ≠ "") :
    snapshot_map_lines ls =
      snapshot_map_lines (ls.filter (fun l => !startsDash l)) :=
  snapMapGo_filter_dash ls [] h

/-- Witness for C10 at a concrete line list containing a well-formed
dash-initial line. -/
theorem c10_dash_lines_skipped_witness :
    snapshot_map_lines ["-x=\"1\"", "a=\"b\""] =
      snapshot_map_lines
        (["-x=\"1\"", "a=\"b\""].filter (fun l => !startsDash l)) :=
  c10_dash_lines_skipped ["-x=\"1\"", "a=\"b\""] (by decide)

/-- C6: name lookup over a snapshot collection is a ternary outcome: a
`MissingData` error for zero matches, the unique matching node for exactly
one, an `Ambiguous` error for two or more. -/
theorem c6_get_unique_by_name (t : Snapshots) (name : String) :
    (get_by_name t name = [] →
      get_unique_by_name t name =
        .error (.missingData ("The VM has no snapshot named " ++ name))) ∧
    (∀ s, get_by_name t name = [s] → get_unique_by_name t name = .ok s) ∧
    (2 ≤ (get_by_name t name).length →
      get_unique_by_name t name =
        .error (.ambiguous ("The VM has multiple snapshots named " ++ name))) := by
  refine ⟨?_, ?_, ?_⟩
  · intro h
    simp [get_unique_by_name, h]
  · intro s h
    simp [get_unique_by_name, h]
  · intro h
    rcases hg : get_by_name t name with _ | ⟨a, _ | ⟨b, rest⟩⟩
    · rw [hg] at h; simp at h
    · rw [hg] at h; simp at h
    · simp [get_unique_by_name, hg]

/-- Witness for C6 on a concrete collection with two nodes named `a`. -/
theorem c6_get_unique_by_name_witness :
    get_unique_by_name ⟨[(1, ⟨"a", 1, [], []⟩), (2, ⟨"a", 2, [], []⟩)], 1, 1⟩ "a" =
      .error (.ambiguous ("The VM has multiple snapshots named " ++ "a")) :=
  (c6_get_unique_by_name
    ⟨[(1, ⟨"a", 1, [], []⟩), (2, ⟨"a", 2, [], []⟩)], 1, 1⟩ "a").2.2 (by decide)

/-- Splitting always yields at least one part. -/
theorem splitOnChar_ne_nil (sep : Char) (cs : List Char) :
    splitOnChar sep cs ≠ [] := by
  cases cs with
  | nil => simp [splitOnChar]
  | cons c t =>
    by_cases h : c = sep
    · simp [splitOnChar, h]
    · simp only [splitOnChar, if_neg h]
      rcases hs : splitOnChar sep t with _ | ⟨l, ls⟩ <;> simp

/-- Inverse of splitting: interleave the separator back between the parts. -/
def unsplitChar (sep : Char) : List (List Char) → List Char
  | [] => []
  | [l] => l
  | l :: ls => l ++ sep :: unsplitChar sep ls

/-- Splitting on a separator loses no content: re-interleaving the separator
recovers the original character list. -/
theorem unsplit_splitOnChar (sep : Char) (cs : List Char) :
    unsplitChar sep (splitOnChar sep cs) = cs := by
  induction cs with
  | nil => rfl
  | cons c t ih =>
    by_cases h : c = sep
    · subst h
      simp only [splitOnChar, if_pos rfl]
      rcases hs : splitOnChar c t with _ | ⟨l, ls⟩
      · exact absurd hs (splitOnChar_ne_nil c t)
      · rw [hs] at ih
        simp [unsplitChar, ih]
    · simp only [splitOnChar, if_neg h]
      rcases hs : splitOnChar sep t with _ | ⟨l, ls⟩
      · exact absurd hs (splitOnChar_ne_nil sep t)
      · rw [hs] at ih
        cases ls with
        | nil => simpa [unsplitChar] using ih
        | cons l2 ls2 => simpa [unsplitChar] using ih

/-- No part produced by splitting contains the separator. -/
theorem splitOnChar_not_mem (sep : Char) (cs : List Char) :
    ∀ l ∈ splitOnChar sep cs, sep ∉ l := by
  induction cs with
  | nil => simp [splitOnChar]
  | cons c t ih =>
    by_cases h : c = sep
    · subst h
      simpa [splitOnChar] using ih
    · simp only [splitOnChar, if_neg h]
      rcases hs : splitOnChar sep t with _ | ⟨l, ls⟩
      · exact absurd hs (splitOnChar_ne_nil sep t)
      · rw [hs] at ih
        intro x hx
        rcases List.mem_cons.mp hx with hx1 | hx2
        · subst hx1
          intro hmem
          rcases List.mem_cons.mp hmem with h1 | h2
          · exact h h1.symm
          · exact ih l (List.mem_cons_self l ls) h2
        · exact ih x (List.mem_cons_of_mem l hx2)

/-- C7 (amended): on a buffer that is not valid UTF-8 the line parser
panics (the source uses `expect`); there is no typed encoding error.  On a
valid buffer it returns the parts obtained by splitting the decoded text on
line-feed characters (a lossless split whose parts contain no line feed),
dropping empty parts when configured to ignore them. -/
theorem c7_encoding_behavior (buf : List Nat) (el : EmptyLine) :
    (utf8Decode buf = none →
      buf_to_strlines buf el = .crash "Buffer not UTF-8") ∧
    (∀ cs, utf8Decode buf = some cs →
      buf_to_strlines buf el =
        .ok (((splitOnChar '\n' cs).filter
          (fun l => !(l.isEmpty && el == .Ignore))).map (fun l => String.mk l)) ∧
      unsplitChar '\n' (splitOnChar '\n' cs) = cs ∧
      ∀ l ∈ splitOnChar '\n' cs, '\n' ∉ l) := by
  constructor
  · intro h
    simp [buf_to_strlines, h]
  · intro cs h
    refine ⟨by simp [buf_to_strlines, h], unsplit_splitOnChar '\n' cs,
      splitOnChar_not_mem '\n' cs⟩

/-- Witness for C7 (amended) on the concrete buffer holding `a`, two line
feeds and `b`: with empty lines ignored, the parser yields the two lines. -/
theorem c7_encoding_behavior_witness :
    buf_to_strlines ("a\n\nb".data.map Char.toNat) .Ignore = .ok ["a", "b"] := by
  have h := (c7_encoding_behavior ("a\n\nb".data.map Char.toNat) .Ignore).2
    "a\n\nb".data (by decide)
  exact h.1.trans (by decide)

/-- C7 counterexample: on the invalid byte `0xFF` the line parser panics; it
does not return a typed (recoverable) error value, contrary to the claimed
`EncodingError` behavior (no such error variant exists in the code). -/
theorem c7_counterexample :
    buf_to_strlines [255] .Ignore = .crash "Buffer not UTF-8" ∧
      RunRes.isErr (buf_to_strlines [255] .Ignore) = false := by
  constructor <;> decide

/-- A list of class characters is scanned whole. -/
theorem spanKV_all (k : List Char) (hk : ∀ c ∈ k, isKVChar c = true) :
    spanKV k = (k, []) := by
  induction k with
  | nil => rfl
  | cons c t ih =>
    have hc : isKVChar c = true := hk c (List.mem_cons_self c t)
    have ht : ∀ x ∈ t, isKVChar x = true :=
      fun x hx => hk x (List.mem_cons_of_mem c hx)
    simp [spanKV, hc, ih ht]

/-- The scan of class characters stops exactly at the first delimiter. -/
theorem spanKV_break (k : List Char) (d : Char) (r : List Char)
    (hk : ∀ c ∈ k, isKVChar c = true) (hd : isKVChar d = false) :
    spanKV (k ++ d :: r) = (k, d :: r) := by
  induction k with
  | nil => simp [spanKV, hd]
  | cons c t ih =>
    have hc : isKVChar c = true := hk c (List.mem_cons_self c t)
    have ht : ∀ x ∈ t, isKVChar x = true :=
      fun x hx => hk x (List.mem_cons_of_mem c hx)
    simp [spanKV, hc, ih ht]

/-- Dropping a prefix cannot cross an element the predicate rejects. -/
theorem dropWhile_append_stop {α : Type} (p : α → Bool) (a : List α) (b : α)
    (c : List α) (hb : p b = false) :
    List.dropWhile p (a ++ b :: c) = List.dropWhile p a ++ b :: c := by
  induction a with
  | nil => simp [List.dropWhile, hb]
  | cons x xs ih =>
    cases hx : p x <;> simp [List.dropWhile, hx, ih]

/-- Trailing-whitespace stripping never reaches past a non-whitespace
character. -/
theorem trimEnd_break (xs : List Char) (c : Char) (ys : List Char)
    (hc : c.isWhitespace = false) :
    trimEndCs (xs ++ c :: ys) = xs ++ c :: trimEndCs ys := by
  simp only [trimEndCs, List.reverse_append, List.reverse_cons,
    List.append_assoc, List.singleton_append]
  rw [dropWhile_append_stop _ _ _ _ hc]
  simp [List.reverse_append]

/-- Characters of the trimmed list come from the original list. -/
theorem mem_trimEnd (l : List Char) (c : Char) (h : c ∈ trimEndCs l) :
    c ∈ l := by
  unfold trimEndCs at h
  rw [List.mem_reverse] at h
  exact List.mem_reverse.mp ((List.dropWhile_sublist _).subset h)

/-- Quote is outside the key/value character class. -/
theorem isKVChar_quote : isKVChar '\"' = false := by decide

/-- First matcher rejects any line whose first character is a quote. -/
theorem re1_none_of_quoteHead (cs : List Char) :
    re1Match ('\"' :: cs) = none := by
  simp [re1Match, spanKV, isKVChar_quote]

/-- First matcher rejects an unquoted `key=value` line. -/
theorem re1_none_of_unquoted (k w : List Char) (hk : k ≠ [])
    (hkc : ∀ c ∈ k, isKVChar c = true) (hw : ∀ c ∈ w, isKVChar c = true) :
    re1Match (k ++ '=' :: w) = none := by
  have hspan := spanKV_break k '=' w hkc (by decide)
  have hke : k.isEmpty = false := by
    rcases hkd : k with _ | ⟨a, b⟩
    · exact absurd hkd hk
    · rfl
  rcases w with _ | ⟨c, w'⟩
  · simp [re1Match, hspan, hke]
  · have hc : ¬c = '\"' := by
      have := hw c (List.mem_cons_self c w')
      simp [isKVChar] at this
      exact this.1
    simp only [re1Match, hspan, hke, Bool.false_eq_true, if_false]
    split <;> simp_all

/-- Second matcher rejects any line whose first character is not a quote. -/
theorem re2_none_of_head (c : Char) (cs : List Char) (hc : ¬c = '\"') :
    re2Match (c :: cs) = none := by
  unfold re2Match
  split <;> simp_all

/-- Third matcher accepts an unquoted `key=value` line. -/
theorem re3_some_of_unquoted (k w : List Char) (hk : k ≠ [])
    (hkc : ∀ c ∈ k, isKVChar c = true) (hw : ∀ c ∈ w, isKVChar c = true) :
    re3Match (k ++ '=' :: w) = some (k, w) := by
  have hspan := spanKV_break k '=' w hkc (by decide)
  have hke : k.isEmpty = false := by
    rcases hkd : k with _ | ⟨a, b⟩
    · exact absurd hkd hk
    · rfl
  simp [re3Match, hspan, hke, spanKV_all w hw]

/-- Decoding a convention-1 line `key="value"` (delimiters excluded from both
parts) extracts exactly the key and the value. -/
theorem decode_conv1 (key val : String) (hk : key.data ≠ [])
    (hkc : ∀ c ∈ key.data, isKVChar c = true)
    (hvc : ∀ c ∈ val.data, isKVChar c = true) :
    decodeKVLine (key ++ "=\"" ++ val ++ "\"") = some (key, val) := by
  have hdata : (key ++ "=\"" ++ val ++ "\"").data
      = key.data ++ '=' :: '\"' :: (val.data ++ ['\"']) := by
    simp [String.data_append]
  have htrim : trimEndCs (key.data ++ '=' :: '\"' :: (val.data ++ ['\"']))
      = key.data ++ '=' :: '\"' :: (val.data ++ ['\"']) := by
    have h := trimEnd_break (key.data ++ '=' :: '\"' :: val.data) '\"' []
      (by decide)
    simpa [List.append_assoc] using h
  have hke : (key.data).isEmpty = false := by
    rcases hkd : key.data with _ | ⟨a, b⟩
    · exact absurd hkd hk
    · rfl
  have hspan1 := spanKV_break key.data '=' ('\"' :: (val.data ++ ['\"'])) hkc
    (by decide)
  have hspan2 := spanKV_break val.data '\"' [] hvc (by decide)
  have h1 : re1Match (key.data ++ '=' :: '\"' :: (val.data ++ ['\"']))
      = some (key.data, val.data) := by
    simp [re1Match, hspan1, hke, hspan2]
  simp [decodeKVLine, hdata, htrim, h1, string_mk_data]

/-- Decoding a convention-2 line `"key"="value"` extracts exactly the key and
the value, with no quotes retained. -/
theorem decode_conv2 (key val : String) (hk : key.data ≠ [])
    (hkc : ∀ c ∈ key.data, isKVChar c = true)
    (hvc : ∀ c ∈ val.data, isKVChar c = true) :
    decodeKVLine ("\"" ++ key ++ "\"=\"" ++ val ++ "\"") = some (key, val) := by
  have hdata : ("\"" ++ key ++ "\"=\"" ++ val ++ "\"").data
      = '\"' :: (key.data ++ '\"' :: '=' :: '\"' :: (val.data ++ ['\"'])) := by
    simp [String.data_append]
  have htrim : trimEndCs
      ('\"' :: (key.data ++ '\"' :: '=' :: '\"' :: (val.data ++ ['\"'])))
      = '\"' :: (key.data ++ '\"' :: '=' :: '\"' :: (val.data ++ ['\"'])) := by
    have h := trimEnd_break
      ('\"' :: (key.data ++ '\"' :: '=' :: '\"' :: val.data)) '\"' []
      (by decide)
    simpa [List.append_assoc] using h
  have hke : (key.data).isEmpty = false := by
    rcases hkd : key.data with _ | ⟨a, b⟩
    · exact absurd hkd hk
    · rfl
  have hspan1 := spanKV_break key.data '\"'
    ('=' :: '\"' :: (val.data ++ ['\"'])) hkc (by decide)
  have hspan2 := spanKV_break val.data '\"' [] hvc (by decide)
  have h2 : re2Match
      ('\"' :: (key.data ++ '\"' :: '=' :: '\"' :: (val.data ++ ['\"'])))
      = some (key.data, val.data) := by
    simp [re2Match, hspan1, hke, hspan2]
  simp [decodeKVLine, hdata, htrim, re1_none_of_quoteHead, h2, string_mk_data]

/-- Decoding a convention-3 line `key=value` (no quotes anywhere) extracts
the key and the value with the value's trailing whitespace stripped (the
decoder trims the end of the whole line first). -/
theorem decode_conv3 (key val : String) (hk : key.data ≠ [])
    (hkc : ∀ c ∈ key.data, isKVChar c = true)
    (hvc : ∀ c ∈ val.data, isKVChar c = true) :
    decodeKVLine (key ++ "=" ++ val) = some (key, strTrimEnd val) := by
  have hdata : (key ++ "=" ++ val).data = key.data ++ '=' :: val.data := by
    simp [String.data_append]
  have htrim : trimEndCs (key.data ++ '=' :: val.data)
      = key.data ++ '=' :: trimEndCs val.data :=
    trimEnd_break key.data '=' val.data (by decide)
  have hwc : ∀ c ∈ trimEndCs val.data, isKVChar c = true :=
    fun c hc => hvc c (mem_trimEnd val.data c hc)
  have hkhead : ∃ a b, key.data = a :: b ∧ ¬a = '\"' := by
    rcases hkd : key.data with _ | ⟨a, b⟩
    · exact absurd hkd hk
    · refine ⟨a, b, rfl, ?_⟩
      have := hkc a (by rw [hkd]; exact List.mem_cons_self a b)
      simp [isKVChar] at this
      exact this.1
  obtain ⟨a, b, hab, ha⟩ := hkhead
  have h2 : re2Match (key.data ++ '=' :: trimEndCs val.data) = none := by
    rw [hab, List.cons_append]
    exact re2_none_of_head a (b ++ '=' :: trimEndCs val.data) ha
  simp [decodeKVLine, hdata, htrim,
    re1_none_of_unquoted key.data (trimEndCs val.data) hk hkc hwc, h2,
    re3_some_of_unquoted key.data (trimEndCs val.data) hk hkc hwc,
    string_mk_data, strTrimEnd]

/-- C3 counterexample: the line `a="b=c"` is a convention-1 line under the
claim (quoted value containing no quote), yet the decoder extracts no pair,
because the value capture class `[^"=]` also excludes the equals sign. -/
theorem c3_counterexample : decodeKVLine "a=\"b=c\"" = none := by decide

/-- C3 (amended): the decoder extracts exactly the key and value of a line
in any of the three conventions, with no quote characters retained, provided
neither key nor value contains a quote or an equals sign (the capture class
of every pattern is `[^"=]`, so an embedded equals sign also prevents a
match); in the unquoted convention the value is returned with trailing
whitespace stripped, since the decoder trims the line end first.  A line
matching no convention yields no pair and is skipped without aborting the
fold over the remaining lines. -/
theorem c3_decoder_conventions :
    (∀ key val : String, key.data ≠ [] →
      (∀ c ∈ key.data, isKVChar c = true) →
      (∀ c ∈ val.data, isKVChar c = true) →
      decodeKVLine (key ++ "=\"" ++ val ++ "\"") = some (key, val) ∧
      decodeKVLine ("\"" ++ key ++ "\"=\"" ++ val ++ "\"") = some (key, val) ∧
      decodeKVLine (key ++ "=" ++ val) = some (key, strTrimEnd val)) ∧
    (∀ (acc : FlatMap) (l : String) (ls : List String),
      decodeKVLine l = none → vmInfoGo acc (l :: ls) = vmInfoGo acc ls) := by
  constructor
  · intro key val hk hkc hvc
    exact ⟨decode_conv1 key val hk hkc hvc, decode_conv2 key val hk hkc hvc,
      decode_conv3 key val hk hkc hvc⟩
  · intro acc l ls h
    simp [vmInfoGo, h]

/-- Witness for C3 (amended) at concrete key `a` and value `b`. -/
theorem c3_decoder_conventions_witness :
    decodeKVLine ("a" ++ "=\"" ++ "b" ++ "\"") = some ("a", "b") :=
  (c3_decoder_conventions.1 "a" "b" (by decide) (by decide) (by decide)).1

/-- Root name key. -/
theorem nameKey_root : nameKey "" = "SnapshotName" := rfl

/-- Root uuid key. -/
theorem uuidKey_root : uuidKey "" = "SnapshotUUID" := rfl

/-- First child branch of the root. -/
theorem childBranch_root_one : childBranch "" 1 = "-1" := rfl

/-- Uuid key probed for the first child of the root. -/
theorem uuidKey_child_one : uuidKey (childBranch "" 1) = "SnapshotUUID-1" := rfl

/-- Name key of the first child of the root. -/
theorem nameKey_child_one : nameKey (childBranch "" 1) = "SnapshotName-1" := rfl

/-- Uuid key probed for the second child of the root. -/
theorem uuidKey_child_two : uuidKey (childBranch "" 2) = "SnapshotUUID-2" := rfl

/-- Uuid key probed for the first grandchild under branch `-1`. -/
theorem uuidKey_grandchild :
    uuidKey (childBranch "-1" 1) = "SnapshotUUID-1-1" := rfl

/-- Small numeral normalization used while unfolding the probe loop. -/
theorem nat_one_add_one : (1 : Nat) + 1 = 2 := rfl

/-- Appending the empty string on the right is the identity. -/
theorem str_append_empty (s : String) : s ++ "" = s :=
  String.ext (by simp [String.data_append])

/-- A map with a successful lookup is nonempty. -/
theorem length_succ_of_alookup (m : FlatMap) (k v : String)
    (h : alookup m k = some v) : ∃ n, m.length = n + 1 := by
  cases m with
  | nil => simp [alookup] at h
  | cons p t => exact ⟨t.length, rfl⟩

/-- A map with successful lookups at two distinct keys has length at least
two. -/
theorem length_succ2_of_alookup (m : FlatMap) (k1 k2 v1 v2 : String)
    (h1 : alookup m k1 = some v1) (h2 : alookup m k2 = some v2)
    (hne : k1 ≠ k2) : ∃ n, m.length = n + 2 := by
  cases m with
  | nil => simp [alookup] at h1
  | cons p t =>
    obtain ⟨k, v⟩ := p
    by_cases hk : k = k1
    · have hk2 : ¬k = k2 := fun hc => hne (hk ▸ hc ▸ rfl)
      simp only [alookup, if_neg hk2] at h2
      obtain ⟨n, hn⟩ := length_succ_of_alookup t k2 v2 h2
      exact ⟨n, by simp [hn]⟩
    · simp only [alookup, if_neg hk] at h1
      obtain ⟨n, hn⟩ := length_succ_of_alookup t k1 v1 h1
      exact ⟨n, by simp [hn]⟩

/-- The child-probe loop never panics: it returns normally or with a typed
error. -/
theorem probe_no_crash (m : FlatMap) (uidstr : String) (u : Nat)
    (cb : String) :
    ∀ (fuel i : Nat) (sm : SnapMap) (rq : List String) (s : String),
      probe m uidstr u cb i fuel sm rq ≠ .crash s := by
  intro fuel
  induction fuel with
  | zero => intro i sm rq s; simp [probe]
  | succ f ih =>
    intro i sm rq s
    rcases h : alookup m (uuidKey (childBranch cb i)) with _ | v
    · simp [probe, h]
    · rcases hp : parseUuid v with _ | cuid
      · simp [probe, h, hp]
      · simpa [probe, h, hp] using
          ih (i + 1) (pushChild sm u cuid) (childBranch cb i :: rq) s

/-- The work-list loop can panic only with the unwrap message (a missing
name/uuid value for a queued branch) or by fuel exhaustion; in particular
never with the messages of the final assembly step. -/
theorem snapLoop_crash_msg (m : FlatMap) :
    ∀ (fuel : Nat) (sm : SnapMap) (rq : List String) (s : String),
      snapLoop m fuel sm rq = .crash s →
        s = "fuel exhausted" ∨ s = unwrapMsg := by
  intro fuel
  induction fuel with
  | zero =>
    intro sm rq s h
    simp [snapLoop] at h
    exact Or.inl h.symm
  | succ f ih =>
    intro sm rq s h
    rcases rq with _ | ⟨cb, rq'⟩
    · simp [snapLoop] at h
    · simp only [snapLoop] at h
      split at h
      · simp at h; exact Or.inr h.symm
      · split at h
        · simp at h; exact Or.inr h.symm
        · split at h
          · simp at h
          · split at h
            · simp at h
            · rename_i s' heq
              simp at h
              subst h
              exact absurd heq
                (probe_no_crash m _ _ cb (m.length + 1) 1 _ _ s')
            · exact ih _ _ s h

/-- C9: the reconstruction never fails through the `No root UUID` or
`No current UUID` branches of the final assembly step: by the time assembly
runs, both identifiers have been resolved, so those panics are unreachable
for every input flat map. -/
theorem c9_assembly_panics_unreachable (m : FlatMap) :
    get_from_map m ≠ .crash "No root UUID" ∧
      get_from_map m ≠ .crash "No current UUID" := by
  have key : ∀ s, get_from_map m = .crash s →
      s = "fuel exhausted" ∨ s = unwrapMsg := by
    intro s h
    unfold get_from_map at h
    split at h
    · split at h
      · simp at h
      · split at h
        · simp at h
        · rename_i s' heq
          simp at h
          subst h
          exact snapLoop_crash_msg m (m.length + 1) [] [""] s' heq
        · split at h
          · simp at h
          · split at h
            · simp at h
            · simp [assemble] at h
    · simp at h
  constructor
  · intro h
    rcases key _ h with h' | h' <;> exact absurd h' (by decide)
  · intro h
    rcases key _ h with h' | h' <;> exact absurd h' (by decide)

/-- Witness for C9 at the empty flat map. -/
theorem c9_assembly_panics_unreachable_witness :
    get_from_map [] ≠ RunRes.crash "No root UUID" :=
  (c9_assembly_panics_unreachable []).1

/-- C4 counterexample: in the flat map holding only a malformed
`CurrentSnapshotUUID`, a value expected to be a unique identifier fails to
parse, yet reconstruction succeeds with the no-snapshots result instead of
failing with the malformed-identifier error: the value is never examined
because the root detection returns first. -/
theorem c4_counterexample :
    parseUuid "nonsense" = none ∧
      get_from_map [("CurrentSnapshotUUID", "nonsense")] = .ok none := by
  constructor <;> decide

/-- C4 (amended): an identifier value that fails to parse is fatal with the
`BadFormat` (malformed-identifier) error at every stage the reconstruction
actually examines it: the root uuid once both root keys are present, a
probed child uuid, and `CurrentSnapshotUUID` once the walk has completed;
values in portions of the map never examined cause no error. -/
theorem c4_parse_failure_stages (m : FlatMap) :
    (∀ x uid, alookup m "SnapshotName" = some x →
      alookup m "SnapshotUUID" = some uid → parseUuid uid = none →
      get_from_map m = .err (.badFormat ("Unable to parse root UUID " ++ uid))) ∧
    (∀ x uid ru v, alookup m "SnapshotName" = some x →
      alookup m "SnapshotUUID" = some uid → parseUuid uid = some ru →
      alookup m "SnapshotUUID-1" = some v → parseUuid v = none →
      get_from_map m =
        .err (.badFormat ("Unable to parse UUID " ++ uid ++ " for SnapshotUUID"))) ∧
    (∀ x uid ru us, alookup m "SnapshotName" = some x →
      alookup m "SnapshotUUID" = some uid → parseUuid uid = some ru →
      alookup m "SnapshotUUID-1" = none →
      alookup m "CurrentSnapshotUUID" = some us → parseUuid us = none →
      get_from_map m =
        .err (.badFormat ("Unable to parse current UUID " ++ us))) := by
  refine ⟨?_, ?_, ?_⟩
  · intro x uid h1 h2 h3
    simp [get_from_map, h1, h2, h3]
  · intro x uid ru v h1 h2 h3 h4 h5
    obtain ⟨n, hn⟩ := length_succ_of_alookup m "SnapshotName" x h1
    simp only [get_from_map, h1, h2, h3, hn]
    simp only [snapLoop, nameKey_root, uuidKey_root, h1, h2, h3]
    simp only [probe, uuidKey_child_one, h4, h5]
    simp [str_append_empty]
  · intro x uid ru us h1 h2 h3 h4 h5 h6
    obtain ⟨n, hn⟩ := length_succ_of_alookup m "SnapshotName" x h1
    simp only [get_from_map, h1, h2, h3, hn]
    simp only [snapLoop, nameKey_root, uuidKey_root, h1, h2, h3]
    simp only [probe, uuidKey_child_one, h4]
    simp only [snapLoop, h5, h6]

/-- Witness for C4 (amended), root stage, at a concrete map with an
unparseable root uuid. -/
theorem c4_parse_failure_stages_witness :
    get_from_map [("SnapshotName", "r"), ("SnapshotUUID", "zzz")] =
      .err (.badFormat ("Unable to parse root UUID " ++ "zzz")) :=
  (c4_parse_failure_stages [("SnapshotName", "r"), ("SnapshotUUID", "zzz")]).1
    "r" "zzz" (by decide) (by decide) (by decide)

/-- C5 counterexample: branch `-1` is queued (its uuid key was found during
the root probe) but `SnapshotName-1` is absent when the branch is popped; the
claimed behavior is a returned `MissingData` error, but the call panics via
`unwrap` instead — the run result is a crash, not a typed error value. -/
theorem c5_counterexample :
    get_from_map
        [("SnapshotName", "r"),
         ("SnapshotUUID", "11111111-1111-1111-1111-111111111111"),
         ("SnapshotUUID-1", "22222222-2222-2222-2222-222222222222"),
         ("CurrentSnapshotUUID", "11111111-1111-1111-1111-111111111111")] =
      .crash unwrapMsg ∧
    RunRes.isErr
        (get_from_map
          [("SnapshotName", "r"),
           ("SnapshotUUID", "11111111-1111-1111-1111-111111111111"),
           ("SnapshotUUID-1", "22222222-2222-2222-2222-222222222222"),
           ("CurrentSnapshotUUID", "11111111-1111-1111-1111-111111111111")]) =
      false := by
  constructor <;> decide

/-- C5 (amended): when a queued branch path is popped and its
`SnapshotName{P}` key is absent, the reconstruction panics with the unwrap
message rather than returning a typed error (`SnapshotUUID{P}` cannot be
absent at pop time, since a branch is queued only after that key was found
and the map is immutable). -/
theorem c5_missing_name_panics (m : FlatMap) (x uid v : String) (ru u1 : Nat)
    (h1 : alookup m "SnapshotName" = some x)
    (h2 : alookup m "SnapshotUUID" = some uid)
    (h3 : parseUuid uid = some ru)
    (h4 : alookup m "SnapshotUUID-1" = some v)
    (h5 : parseUuid v = some u1)
    (h6 : alookup m "SnapshotName-1" = none)
    (h7 : alookup m "SnapshotUUID-2" = none) :
    get_from_map m = .crash unwrapMsg := by
  obtain ⟨n, hn⟩ := length_succ_of_alookup m "SnapshotName" x h1
  simp only [get_from_map, h1, h2, h3, hn]
  simp only [snapLoop, nameKey_root, uuidKey_root, h1, h2, h3]
  simp only [probe, hn, nat_one_add_one, uuidKey_child_one, uuidKey_child_two,
    h4, h5, h7]
  simp only [nameKey_child_one, h6]

/-- Witness for C5 (amended) at a concrete map. -/
theorem c5_missing_name_panics_witness :
    get_from_map
        [("SnapshotName", "s"),
         ("SnapshotUUID", "33333333-3333-3333-3333-333333333333"),
         ("SnapshotUUID-1", "44444444-4444-4444-4444-444444444444")] =
      .crash unwrapMsg :=
  c5_missing_name_panics _ "s" "33333333-3333-3333-3333-333333333333"
    "44444444-4444-4444-4444-444444444444"
    (parseUuid "33333333-3333-3333-3333-333333333333").get!
    (parseUuid "44444444-4444-4444-4444-444444444444").get!
    (by decide) (by decide) (by decide) (by decide) (by decide) (by decide)
    (by decide)

/-- Second small numeral normalization for the probe loop. -/
theorem nat_two_add_one : (2 : Nat) + 1 = 3 := rfl

/-- Branch path of the second child of the root. -/
theorem childBranch_root_two : childBranch "" 2 = "-2" := rfl

/-- Uuid key probed for the third child of the root. -/
theorem uuidKey_child_three :
    uuidKey (childBranch "" 3) = "SnapshotUUID-3" := rfl

/-- Name key of branch `-1`. -/
theorem nameKey_b1 : nameKey "-1" = "SnapshotName-1" := rfl

/-- Uuid key of branch `-1`. -/
theorem uuidKey_b1 : uuidKey "-1" = "SnapshotUUID-1" := rfl

/-- Uuid key of branch `-2`. -/
theorem uuidKey_b2 : uuidKey "-2" = "SnapshotUUID-2" := rfl

/-- Uuid key of branch `-3`. -/
theorem uuidKey_b3 : uuidKey "-3" = "SnapshotUUID-3" := rfl

/-- C2: child enumeration is contiguity-gated.  First conjunct: the probe
loop visits indices 1, 2, 3, … in increasing order, appends each discovered
child to the parent node in that order, pushes the child branches onto the
queue, and stops at the first absent index.  Second conjunct: on any flat map
with a valid root, a valid child `-1`, no `SnapshotUUID-2`, and a present
`SnapshotUUID-3`, the resulting tree holds exactly the root (whose children
list is just the `-1` child) and the `-1` child; no node for branch `-3`
exists, even though its key is present. -/
theorem c2_contiguous_enumeration :
    (∀ (m : FlatMap) (uidstr : String) (u : Nat) (f : Nat) (sm : SnapMap)
        (rq : List String) (v1 v2 : String) (u1 u2 : Nat),
      alookup m "SnapshotUUID-1" = some v1 → parseUuid v1 = some u1 →
      alookup m "SnapshotUUID-2" = some v2 → parseUuid v2 = some u2 →
      alookup m "SnapshotUUID-3" = none →
      probe m uidstr u "" 1 (f + 3) sm rq =
        .ok (pushChild (pushChild sm u u1) u u2, "-2" :: "-1" :: rq)) ∧
    (∀ (m : FlatMap) (x v0 nm1 v1 v3 w : String) (u0 u1 u3 cu : Nat),
      alookup m "SnapshotName" = some x →
      alookup m "SnapshotUUID" = some v0 → parseUuid v0 = some u0 →
      alookup m "SnapshotName-1" = some nm1 →
      alookup m "SnapshotUUID-1" = some v1 → parseUuid v1 = some u1 →
      alookup m "SnapshotUUID-2" = none →
      alookup m "SnapshotUUID-3" = some v3 → parseUuid v3 = some u3 →
      alookup m "SnapshotUUID-1-1" = none →
      alookup m "CurrentSnapshotUUID" = some w → parseUuid w = some cu →
      u1 ≠ u0 →
      get_from_map m =
        .ok (some ⟨[(u0, ⟨x, u0, [], [u1]⟩), (u1, ⟨nm1, u1, [], []⟩)], u0, cu⟩) ∧
      (u3 ≠ u0 → u3 ≠ u1 →
        alookup ([(u0, ⟨x, u0, [], [u1]⟩), (u1, ⟨nm1, u1, [], []⟩)] : SnapMap)
          u3 = none)) := by
  constructor
  · intro m uidstr u f sm rq v1 v2 u1 u2 hv1 hp1 hv2 hp2 hv3
    simp only [probe, nat_one_add_one, nat_two_add_one, uuidKey_child_one,
      uuidKey_child_two, uuidKey_child_three, childBranch_root_one,
      childBranch_root_two, uuidKey_b1, uuidKey_b2, uuidKey_b3, hv1, hp1,
      hv2, hp2, hv3]
  · intro m x v0 nm1 v1 v3 w u0 u1 u3 cu h1 h2 h3 h6 h4 h5 h7 h8 h9 h10
      h11 h12 h13
    have h13' : ¬u0 = u1 := fun hh => h13 hh.symm
    obtain ⟨k, hk⟩ := length_succ2_of_alookup m "SnapshotName" "SnapshotUUID"
      x v0 h1 h2 (by decide)
    constructor
    · simp only [get_from_map, h1, h2, h3, hk]
      simp only [snapLoop, nameKey_root, uuidKey_root, h1, h2, h3]
      simp only [probe, hk, nat_one_add_one, uuidKey_child_one,
        uuidKey_child_two, childBranch_root_one, childBranch_root_two,
        uuidKey_b1, uuidKey_b2, h4, h5, h7]
      simp only [nameKey_b1, uuidKey_b1, h6, h4, h5]
      simp only [probe, uuidKey_grandchild, h10]
      simp only [h11, h12, assemble]
      simp [ainsert, pushChild, h13']
    · intro hc0 hc1
      have hc0' : ¬u0 = u3 := fun hh => hc0 hh.symm
      have hc1' : ¬u1 = u3 := fun hh => hc1 hh.symm
      simp [alookup, hc0', hc1']

/-- Witness for C2 at a concrete flat map with `-1` and `-3` present and
`-2` absent. -/
theorem c2_contiguous_enumeration_witness :
    get_from_map
        [("SnapshotName", "r"),
         ("SnapshotUUID", "11111111-1111-1111-1111-111111111111"),
         ("SnapshotName-1", "c1"),
         ("SnapshotUUID-1", "22222222-2222-2222-2222-222222222222"),
         ("SnapshotUUID-3", "33333333-3333-3333-3333-333333333333"),
         ("CurrentSnapshotUUID", "11111111-1111-1111-1111-111111111111")] =
      .ok (some
        ⟨[((parseUuid "11111111-1111-1111-1111-111111111111").get!,
            ⟨"r", (parseUuid "11111111-1111-1111-1111-111111111111").get!, [],
              [(parseUuid "22222222-2222-2222-2222-222222222222").get!]⟩),
          ((parseUuid "22222222-2222-2222-2222-222222222222").get!,
            ⟨"c1", (parseUuid "22222222-2222-2222-2222-222222222222").get!,
              [], []⟩)],
          (parseUuid "11111111-1111-1111-1111-111111111111").get!,
          (parseUuid "11111111-1111-1111-1111-111111111111").get!⟩) :=
  (c2_contiguous_enumeration.2 _ "r"
    "11111111-1111-1111-1111-111111111111" "c1"
    "22222222-2222-2222-2222-222222222222"
    "33333333-3333-3333-3333-333333333333"
    "11111111-1111-1111-1111-111111111111"
    (parseUuid "11111111-1111-1111-1111-111111111111").get!
    (parseUuid "22222222-2222-2222-2222-222222222222").get!
    (parseUuid "33333333-3333-3333-3333-333333333333").get!
    (parseUuid "11111111-1111-1111-1111-111111111111").get!
    (by decide) (by decide) (by decide) (by decide) (by decide) (by decide)
    (by decide) (by decide) (by decide) (by decide) (by decide) (by decide)
    (by decide)).1

/-- A queued branch justifying a child identifier: the branch is in the
queue and its uuid value in the flat map parses to the identifier. -/
def childWitness (m : FlatMap) (rq : List String) (c : Nat) : Prop :=
  ∃ b ∈ rq, ∃ v, alookup m (uuidKey b) = some v ∧ parseUuid v = some c

/-- Node invariant: the node name is a `SnapshotName{b}` value of the flat
map, and every child identifier is either already a key of the node map or
justified by a queued branch. -/
def nodeOk (m : FlatMap) (sm : SnapMap) (rq : List String)
    (p : Nat × Snapshot) : Prop :=
  (∃ b, alookup m (nameKey b) = some p.2.name) ∧
  ∀ c ∈ p.2.children,
    (alookup sm c).isSome = true ∨ childWitness m rq c

/-- Loop invariant of the reconstruction: every stored node satisfies the
node invariant. -/
def GoodState (m : FlatMap) (sm : SnapMap) (rq : List String) : Prop :=
  ∀ p ∈ sm, nodeOk m sm rq p

/-- Insertion preserves key presence. -/
theorem alookup_isSome_ainsert (sm : SnapMap) (k : Nat) (s : Snapshot)
    (c : Nat) (h : (alookup sm c).isSome = true) :
    (alookup (ainsert sm k s) c).isSome = true := by
  induction sm with
  | nil => simp [alookup] at h
  | cons p t ih =>
    obtain ⟨k', v⟩ := p
    by_cases h1 : k' = k
    · subst h1
      by_cases h2 : k' = c
      · simp [ainsert, alookup, h2]
      · simp only [alookup, if_neg h2] at h
        simp [ainsert, alookup, h2, h]
    · by_cases h2 : k' = c
      · subst h2
        simp [ainsert, alookup, h1]
      · simp only [alookup, if_neg h2] at h
        simp [ainsert, alookup, h1, h2, ih h]

/-- Insertion stores the inserted binding. -/
theorem alookup_ainsert_self (sm : SnapMap) (k : Nat) (s : Snapshot) :
    alookup (ainsert sm k s) k = some s := by
  induction sm with
  | nil => simp [ainsert, alookup]
  | cons p t ih =>
    obtain ⟨k', v⟩ := p
    by_cases h1 : k' = k
    · subst h1
      simp [ainsert, alookup]
    · simp [ainsert, alookup, h1, ih]

/-- Appending a child to a stored node does not change which keys are
present. -/
theorem alookup_isSome_pushChild (sm : SnapMap) (u c0 c : Nat) :
    (alookup (pushChild sm u c0) c).isSome = (alookup sm c).isSome := by
  induction sm with
  | nil => simp [pushChild]
  | cons p t ih =>
    obtain ⟨k, s⟩ := p
    by_cases h1 : k = u
    · subst h1
      by_cases h2 : k = c <;> simp [pushChild, alookup, h2]
    · by_cases h2 : k = c
      · subst h2
        simp [pushChild, alookup, h1]
      · simp [pushChild, alookup, h1, h2, ih]

/-- Inverting membership after an insertion. -/
theorem mem_ainsert (sm : SnapMap) (k : Nat) (s : Snapshot)
    (p : Nat × Snapshot) (h : p ∈ ainsert sm k s) :
    p = (k, s) ∨ p ∈ sm := by
  induction sm with
  | nil => simpa [ainsert] using h
  | cons q t ih =>
    obtain ⟨k', v⟩ := q
    by_cases h1 : k' = k
    · subst h1
      simp only [ainsert, if_pos rfl] at h
      rcases List.mem_cons.mp h with h2 | h2
      · exact Or.inl h2
      · exact Or.inr (List.mem_cons_of_mem _ h2)
    · simp only [ainsert, if_neg h1] at h
      rcases List.mem_cons.mp h with h2 | h2
      · exact Or.inr (h2 ▸ List.mem_cons_self _ _)
      · rcases ih h2 with h3 | h3
        · exact Or.inl h3
        · exact Or.inr (List.mem_cons_of_mem _ h3)

/-- Inverting membership after a child append: every stored entry descends
from an entry of the original map, either unchanged or (at the target key)
with one child appended. -/
theorem mem_pushChild (sm : SnapMap) (u c0 : Nat) (p : Nat × Snapshot)
    (h : p ∈ pushChild sm u c0) :
    ∃ q ∈ sm, p.1 = q.1 ∧
      (p.2 = q.2 ∨
        (q.1 = u ∧ p.2 = { q.2 with children := q.2.children ++ [c0] })) := by
  induction sm with
  | nil => simp [pushChild] at h
  | cons q t ih =>
    obtain ⟨k, s⟩ := q
    by_cases h1 : k = u
    · subst h1
      simp only [pushChild, if_pos rfl] at h
      rcases List.mem_cons.mp h with h2 | h2
      · exact ⟨(k, s), List.mem_cons_self _ _, by simp [h2], Or.inr ⟨rfl, by simp [h2]⟩⟩
      · exact ⟨p, List.mem_cons_of_mem _ h2, rfl, Or.inl rfl⟩
    · simp only [pushChild, if_neg h1] at h
      rcases List.mem_cons.mp h with h2 | h2
      · exact ⟨(k, s), List.mem_cons_self _ _, by simp [h2], Or.inl (by simp [h2])⟩
      · obtain ⟨q', hq', hfst, hsnd⟩ := ih h2
        exact ⟨q', List.mem_cons_of_mem _ hq', hfst, hsnd⟩

/-- The probe loop preserves the loop invariant: every child it appends to
the parent is justified by the branch it simultaneously queues, keys are
never removed, and the queue only grows. -/
theorem probe_inv (m : FlatMap) (uidstr : String) (u : Nat) (cb : String) :
    ∀ (fuel i : Nat) (sm : SnapMap) (rq : List String) (sm2 : SnapMap)
      (rq2 : List String),
      GoodState m sm rq →
      probe m uidstr u cb i fuel sm rq = .ok (sm2, rq2) →
      GoodState m sm2 rq2 ∧
        (∀ c, childWitness m rq c → childWitness m rq2 c) ∧
        (∀ c, (alookup sm c).isSome = true → (alookup sm2 c).isSome = true) := by
  intro fuel
  induction fuel with
  | zero =>
    intro i sm rq sm2 rq2 hg h
    simp only [probe] at h
    injection h with h'
    injection h' with ha hb
    subst ha; subst hb
    exact ⟨hg, fun c hc => hc, fun c hc => hc⟩
  | succ f ih =>
    intro i sm rq sm2 rq2 hg h
    rcases hl : alookup m (uuidKey (childBranch cb i)) with _ | v
    · simp only [probe, hl] at h
      injection h with h'
      injection h' with ha hb
      subst ha; subst hb
      exact ⟨hg, fun c hc => hc, fun c hc => hc⟩
    · rcases hp : parseUuid v with _ | cuid
      · simp [probe, hl, hp] at h
      · simp only [probe, hl, hp] at h
        have hg' : GoodState m (pushChild sm u cuid)
            (childBranch cb i :: rq) := by
          intro p hpmem
          obtain ⟨q, hq, hfst, hsnd⟩ := mem_pushChild sm u cuid p hpmem
          obtain ⟨hname, hch⟩ := hg q hq
          rcases hsnd with h2 | ⟨hqu, h2⟩
          · refine ⟨by rw [h2]; exact hname, ?_⟩
            intro c hc
            rw [h2] at hc
            rcases hch c hc with hc1 | hc2
            · exact Or.inl (by
                rw [alookup_isSome_pushChild]; exact hc1)
            · obtain ⟨b, hb, v', hv', hp'⟩ := hc2
              exact Or.inr ⟨b, List.mem_cons_of_mem _ hb, v', hv', hp'⟩
          · refine ⟨by rw [h2]; exact hname, ?_⟩
            intro c hc
            rw [h2] at hc
            simp only [List.mem_append, List.mem_singleton] at hc
            rcases hc with hc | hc
            · rcases hch c hc with hc1 | hc2
              · exact Or.inl (by
                  rw [alookup_isSome_pushChild]; exact hc1)
              · obtain ⟨b, hb, v', hv', hp'⟩ := hc2
                exact Or.inr ⟨b, List.mem_cons_of_mem _ hb, v', hv', hp'⟩
            · subst hc
              exact Or.inr ⟨childBranch cb i, List.mem_cons_self _ _, v,
                hl, hp⟩
        obtain ⟨hga, hgb, hgc⟩ := ih (i + 1) (pushChild sm u cuid)
          (childBranch cb i :: rq) sm2 rq2 hg' h
        refine ⟨hga, ?_, ?_⟩
        · intro c hc
          obtain ⟨b, hb, v', hv', hp'⟩ := hc
          exact hgb c ⟨b, List.mem_cons_of_mem _ hb, v', hv', hp'⟩
        · intro c hc
          exact hgc c (by rw [alookup_isSome_pushChild]; exact hc)

/-- The work-list loop preserves the invariant: when it drains the queue and
returns a final node map, every stored node has a `SnapshotName*` value as
its name and fully resolved children, and every identifier that was either
already stored or justified by a queued branch is a key of the final map. -/
theorem snapLoop_inv (m : FlatMap) :
    ∀ (fuel : Nat) (sm : SnapMap) (rq : List String) (smf : SnapMap),
      GoodState m sm rq →
      snapLoop m fuel sm rq = .ok smf →
      GoodState m smf [] ∧
        (∀ c, childWitness m rq c ∨ (alookup sm c).isSome = true →
          (alookup smf c).isSome = true) := by
  intro fuel
  induction fuel with
  | zero => intro sm rq smf hg h; simp [snapLoop] at h
  | succ f ih =>
    intro sm rq smf hg h
    rcases rq with _ | ⟨cb, rq'⟩
    · simp only [snapLoop] at h
      injection h with h'
      subst h'
      refine ⟨hg, ?_⟩
      intro c hc
      rcases hc with hc | hc
      · obtain ⟨b, hb, _⟩ := hc
        simp at hb
      · exact hc
    · simp only [snapLoop] at h
      split at h
      · simp at h
      · rename_i nm heq1
        split at h
        · simp at h
        · rename_i uid heq2
          split at h
          · simp at h
          · rename_i u heq3
            split at h
            · simp at h
            · simp at h
            · rename_i sm2 rq2 heq4
              have hg1 : GoodState m (ainsert sm u ⟨nm, u, [], []⟩) rq' := by
                intro p hp
                rcases mem_ainsert sm u ⟨nm, u, [], []⟩ p hp with h2 | h2
                · subst h2
                  refine ⟨⟨cb, heq1⟩, ?_⟩
                  intro c hc
                  simp at hc
                · obtain ⟨hname, hch⟩ := hg p h2
                  refine ⟨hname, ?_⟩
                  intro c hc
                  rcases hch c hc with hc1 | hc2
                  · exact Or.inl (alookup_isSome_ainsert sm u _ c hc1)
                  · obtain ⟨b, hb, v, hv, hpv⟩ := hc2
                    rcases List.mem_cons.mp hb with hb1 | hb2
                    · subst hb1
                      rw [heq2] at hv
                      injection hv with hv'
                      subst hv'
                      rw [heq3] at hpv
                      injection hpv with hpv'
                      subst hpv'
                      exact Or.inl (by
                        rw [alookup_ainsert_self]; rfl)
                    · exact Or.inr ⟨b, hb2, v, hv, hpv⟩
              obtain ⟨hga, hgb, hgc⟩ := probe_inv m uid u cb
                (m.length + 1) 1 (ainsert sm u ⟨nm, u, [], []⟩) rq' sm2 rq2
                hg1 heq4
              obtain ⟨hfin, hmono⟩ := ih sm2 rq2 smf hga h
              refine ⟨hfin, ?_⟩
              intro c hc
              rcases hc with hc | hc
              · obtain ⟨b, hb, v, hv, hpv⟩ := hc
                rcases List.mem_cons.mp hb with hb1 | hb2
                · subst hb1
                  rw [heq2] at hv
                  injection hv with hv'
                  subst hv'
                  rw [heq3] at hpv
                  injection hpv with hpv'
                  subst hpv'
                  exact hmono _ (Or.inr (hgc _ (by
                    rw [alookup_ainsert_self]; rfl)))
                · exact hmono c (Or.inl (hgb c ⟨b, hb2, v, hv, hpv⟩))
              · exact hmono c (Or.inr (hgc c
                  (alookup_isSome_ainsert sm u _ c hc)))

/-- Inversion of a successful reconstruction: the returned tree's node map
satisfies the node invariant with an empty queue, and the stored root is one
of its keys. -/
theorem get_from_map_ok_inv (m : FlatMap) (t : Snapshots)
    (h : get_from_map m = .ok (some t)) :
    GoodState m t.map [] ∧ (alookup t.map t.root).isSome = true := by
  unfold get_from_map at h
  split at h
  · rename_i x uid heq1 heq2
    split at h
    · simp at h
    · rename_i ru heq3
      split at h
      · simp at h
      · simp at h
      · rename_i sm heq4
        split at h
        · simp at h
        · rename_i us heq5
          split at h
          · simp at h
          · rename_i cu heq6
            simp only [assemble] at h
            injection h with h'
            injection h' with h''
            subst h''
            have hg0 : GoodState m [] [""] := by
              intro p hp
              simp at hp
            obtain ⟨hfin, hmono⟩ := snapLoop_inv m (m.length + 1) [] [""] sm
              hg0 heq4
            refine ⟨hfin, ?_⟩
            exact hmono ru (Or.inl ⟨"", List.mem_cons_self _ _, uid,
              by rw [uuidKey_root]; exact heq2, heq3⟩)
  · simp at h

/-- C1 counterexample: a flat map whose `CurrentSnapshotUUID` parses to an
identifier that is not any snapshot node.  Reconstruction succeeds and the
stored current identifier is not a key of the nodes map (`get_current`
returns nothing), refuting the claimed invariant for `current`. -/
theorem c1_counterexample :
    get_from_map
        [("SnapshotName", "r"),
         ("SnapshotUUID", "11111111-1111-1111-1111-111111111111"),
         ("CurrentSnapshotUUID", "33333333-3333-3333-3333-333333333333")] =
      .ok (some
        ⟨[((parseUuid "11111111-1111-1111-1111-111111111111").get!,
            ⟨"r", (parseUuid "11111111-1111-1111-1111-111111111111").get!,
              [], []⟩)],
          (parseUuid "11111111-1111-1111-1111-111111111111").get!,
          (parseUuid "33333333-3333-3333-3333-333333333333").get!⟩) ∧
    get_current
        ⟨[((parseUuid "11111111-1111-1111-1111-111111111111").get!,
            ⟨"r", (parseUuid "11111111-1111-1111-1111-111111111111").get!,
              [], []⟩)],
          (parseUuid "11111111-1111-1111-1111-111111111111").get!,
          (parseUuid "33333333-3333-3333-3333-333333333333").get!⟩ = none := by
  constructor <;> decide

/-- C1 (amended): every successfully reconstructed tree stores its root as a
key of the nodes map and has no dangling child identifier; the current
identifier, in contrast, is parsed from `CurrentSnapshotUUID` without ever
being checked against the nodes map, so it is not guaranteed to be a key. -/
theorem c1_root_and_children_invariant (m : FlatMap) (t : Snapshots)
    (h : get_from_map m = .ok (some t)) :
    (alookup t.map t.root).isSome = true ∧
      ∀ p ∈ t.map, ∀ c ∈ p.2.children, (alookup t.map c).isSome = true := by
  obtain ⟨hfin, hroot⟩ := get_from_map_ok_inv m t h
  refine ⟨hroot, ?_⟩
  intro p hp c hc
  rcases (hfin p hp).2 c hc with h1 | h2
  · exact h1
  · obtain ⟨b, hb, _⟩ := h2
    simp at hb

/-- Witness for C1 (amended) at a concrete two-node tree. -/
theorem c1_root_and_children_invariant_witness :
    (alookup
      (Snapshots.map
        ⟨[((parseUuid "11111111-1111-1111-1111-111111111111").get!,
            ⟨"A", (parseUuid "11111111-1111-1111-1111-111111111111").get!,
              [], [(parseUuid "22222222-2222-2222-2222-222222222222").get!]⟩),
          ((parseUuid "22222222-2222-2222-2222-222222222222").get!,
            ⟨"B", (parseUuid "22222222-2222-2222-2222-222222222222").get!,
              [], []⟩)],
          (parseUuid "11111111-1111-1111-1111-111111111111").get!,
          (parseUuid "22222222-2222-2222-2222-222222222222").get!⟩)
      (Snapshots.root
        ⟨[((parseUuid "11111111-1111-1111-1111-111111111111").get!,
            ⟨"A", (parseUuid "11111111-1111-1111-1111-111111111111").get!,
              [], [(parseUuid "22222222-2222-2222-2222-222222222222").get!]⟩),
          ((parseUuid "22222222-2222-2222-2222-222222222222").get!,
            ⟨"B", (parseUuid "22222222-2222-2222-2222-222222222222").get!,
              [], []⟩)],
          (parseUuid "11111111-1111-1111-1111-111111111111").get!,
          (parseUuid "22222222-2222-2222-2222-222222222222").get!⟩)).isSome =
      true :=
  (c1_root_and_children_invariant
    [("SnapshotName", "A"),
     ("SnapshotUUID", "11111111-1111-1111-1111-111111111111"),
     ("SnapshotName-1", "B"),
     ("SnapshotUUID-1", "22222222-2222-2222-2222-222222222222"),
     ("CurrentSnapshotUUID", "22222222-2222-2222-2222-222222222222")]
    ⟨[((parseUuid "11111111-1111-1111-1111-111111111111").get!,
        ⟨"A", (parseUuid "11111111-1111-1111-1111-111111111111").get!,
          [], [(parseUuid "22222222-2222-2222-2222-222222222222").get!]⟩),
      ((parseUuid "22222222-2222-2222-2222-222222222222").get!,
        ⟨"B", (parseUuid "22222222-2222-2222-2222-222222222222").get!,
          [], []⟩)],
      (parseUuid "11111111-1111-1111-1111-111111111111").get!,
      (parseUuid "22222222-2222-2222-2222-222222222222").get!⟩
    (by decide)).1

/-- C8 counterexample: a text whose flat map carries a `SnapshotName-5`
value for a branch that contiguous enumeration never discovers (there is no
`SnapshotUUID-1` through `-4` chain).  The reconstructed tree's node-name
set is just `r`, while the set of values under keys beginning with
`SnapshotName` also contains `b`: the claimed round-trip equality fails. -/
theorem c8_counterexample :
    buf_to_strlines
        (("SnapshotName=\"r\"\nSnapshotUUID=\"11111111-1111-1111-1111-111111111111\"\nCurrentSnapshotUUID=\"11111111-1111-1111-1111-111111111111\"\nSnapshotName-5=\"b\"").data.map
          Char.toNat) .Ignore =
      .ok ["SnapshotName=\"r\"",
        "SnapshotUUID=\"11111111-1111-1111-1111-111111111111\"",
        "CurrentSnapshotUUID=\"11111111-1111-1111-1111-111111111111\"",
        "SnapshotName-5=\"b\""] ∧
    snapshot_map_lines
        ["SnapshotName=\"r\"",
          "SnapshotUUID=\"11111111-1111-1111-1111-111111111111\"",
          "CurrentSnapshotUUID=\"11111111-1111-1111-1111-111111111111\"",
          "SnapshotName-5=\"b\""] =
      .ok [("SnapshotName", "r"),
        ("SnapshotUUID", "11111111-1111-1111-1111-111111111111"),
        ("CurrentSnapshotUUID", "11111111-1111-1111-1111-111111111111"),
        ("SnapshotName-5", "b")] ∧
    get_from_map
        [("SnapshotName", "r"),
         ("SnapshotUUID", "11111111-1111-1111-1111-111111111111"),
         ("CurrentSnapshotUUID", "11111111-1111-1111-1111-111111111111"),
         ("SnapshotName-5", "b")] =
      .ok (some
        ⟨[((parseUuid "11111111-1111-1111-1111-111111111111").get!,
            ⟨"r", (parseUuid "11111111-1111-1111-1111-111111111111").get!,
              [], []⟩)],
          (parseUuid "11111111-1111-1111-1111-111111111111").get!,
          (parseUuid "11111111-1111-1111-1111-111111111111").get!⟩) ∧
    alookup
        [("SnapshotName", "r"),
         ("SnapshotUUID", "11111111-1111-1111-1111-111111111111"),
         ("CurrentSnapshotUUID", "11111111-1111-1111-1111-111111111111"),
         ("SnapshotName-5", "b")] "SnapshotName-5" = some "b" ∧
    List.map (fun p => p.2.name)
        (Snapshots.map
          ⟨[((parseUuid "11111111-1111-1111-1111-111111111111").get!,
              ⟨"r", (parseUuid "11111111-1111-1111-1111-111111111111").get!,
                [], []⟩)],
            (parseUuid "11111111-1111-1111-1111-111111111111").get!,
            (parseUuid "11111111-1111-1111-1111-111111111111").get!⟩) =
      ["r"] ∧
    ¬("b" ∈ (["r"] : List String)) := by
  refine ⟨by decide, by decide, by decide, by decide, by decide, by decide⟩

/-- C8 (amended): after building the flat map from text and reconstructing
the tree, every node name is one of the values stored under a key beginning
with `SnapshotName` in the flat map (the converse inclusion fails: a
`SnapshotName`-prefixed value whose branch is never discovered by contiguous
enumeration does not appear in the tree). -/
theorem c8_tree_names_subset (buf : List Nat) (lines : List String)
    (fm : FlatMap) (t : Snapshots)
    (_hb : buf_to_strlines buf .Ignore = .ok lines)
    (_hm : snapshot_map_lines lines = .ok fm)
    (ht : get_from_map fm = .ok (some t)) :
    ∀ p ∈ t.map, ∃ b, alookup fm ("SnapshotName" ++ b) = some p.2.name := by
  obtain ⟨hfin, _⟩ := get_from_map_ok_inv fm t ht
  intro p hp
  exact (hfin p hp).1

/-- Witness for C8 (amended) on a concrete single-snapshot text. -/
theorem c8_tree_names_subset_witness :
    ∃ b,
      alookup
        [("SnapshotName", "r"),
         ("SnapshotUUID", "11111111-1111-1111-1111-111111111111"),
         ("CurrentSnapshotUUID", "11111111-1111-1111-1111-111111111111")]
        ("SnapshotName" ++ b) =
      some (Snapshot.name
        ⟨"r", (parseUuid "11111111-1111-1111-1111-111111111111").get!,
          [], []⟩) :=
  c8_tree_names_subset
    (("SnapshotName=\"r\"\nSnapshotUUID=\"11111111-1111-1111-1111-111111111111\"\nCurrentSnapshotUUID=\"11111111-1111-1111-1111-111111111111\"").data.map
      Char.toNat)
    ["SnapshotName=\"r\"",
      "SnapshotUUID=\"11111111-1111-1111-1111-111111111111\"",
      "CurrentSnapshotUUID=\"11111111-1111-1111-1111-111111111111\""]
    [("SnapshotName", "r"),
     ("SnapshotUUID", "11111111-1111-1111-1111-111111111111"),
     ("CurrentSnapshotUUID", "11111111-1111-1111-1111-111111111111")]
    ⟨[((parseUuid "11111111-1111-1111-1111-111111111111").get!,
        ⟨"r", (parseUuid "11111111-1111-1111-1111-111111111111").get!,
          [], []⟩)],
      (parseUuid "11111111-1111-1111-1111-111111111111").get!,
      (parseUuid "11111111-1111-1111-1111-111111111111").get!⟩
    (by decide) (by decide) (by decide)
    ((parseUuid "11111111-1111-1111-1111-111111111111").get!,
      ⟨"r", (parseUuid "11111111-1111-1111-1111-111111111111").get!, [], []⟩)
    (by decide)
